import Mathlib

/-!
Shallow embedding of the connection/transaction lifecycle controller of
`public/app.js` (class `MonadDemo`), together with models of the two external
library functions its validation logic leans on (the ECMAScript string→number
coercion used by the `<=`/`>` comparisons, and `ethers.utils.parseEther`).

State is passed explicitly; every `await` on an external capability (wallet
RPC, contract call, fetch) is an oracle field of an environment record whose
value is the outcome the capability would produce.  Observable effects are
returned as explicit lists: network calls issued and status-slot writes.
-/

namespace ChaleeMonad

/-! ### Data model -/

/-- Opaque contract interface descriptor (the parsed ABI), kept abstract. -/
abbrev ABI := String

/-- One entry of `this.txHistory` (see `addTransaction`). -/
structure TxRecord where
  type : String
  hash : String
  details : String
  timestamp : Nat
deriving DecidableEq, Repr

/-- The contract capability created by `new ethers.Contract(addr, abi, signer)`. -/
structure ContractHandle where
  address : String
  abi : ABI
deriving DecidableEq, Repr

/-- The mutable fields of the `MonadDemo` instance.  `provider` and `signer`
are opaque handles, modelled only as populated (`some ()`) or `null` (`none`). -/
structure AppState where
  provider : Option Unit
  signer : Option Unit
  contract : Option ContractHandle
  contractAddress : Option String
  contractABI : Option ABI
  userAddress : Option String
  txHistory : List TxRecord
deriving DecidableEq, Repr

/-- The state built by the constructor: every field `null`, empty history. -/
def initialState : AppState :=
  { provider := none, signer := none, contract := none, contractAddress := none
    contractABI := none, userAddress := none, txHistory := [] }

inductive StatusType where
  | success | error | info
deriving DecidableEq, Repr

/-- One call of `showStatus(elementId, message, type)`. -/
structure StatusWrite where
  slot : String
  message : String
  kind : StatusType
deriving DecidableEq, Repr

/-- The parameter object passed to `wallet_addEthereumChain` in `addNetwork`. -/
structure AddChainParams where
  chainId : String
  chainName : String
  currencyName : String
  currencySymbol : String
  currencyDecimals : Nat
  rpcUrls : List String
  blockExplorerUrls : List String
deriving DecidableEq, Repr

/-- A request issued to an external capability (wallet RPC or contract call). -/
inductive NetworkCall where
  | requestAccounts
  | getAddress
  | getNetwork
  | getBalance
  | submitMint (baseUnits : Int)
  | submitTransfer (dest : String) (baseUnits : Int)
  | waitForConfirmation (hash : String)
  | balanceOf (addr : String)
  | whitelistQuery (addr : String)
  | addEthereumChain (params : AddChainParams)
deriving DecidableEq, Repr

/-! ### ECMAScript ToNumber, modelled

`mintTokens`/`transferTokens` compare the raw input string against numbers
(`amount <= 0`, `amount > 1000`), which in JavaScript coerces the string with
ToNumber (NaN-producing inputs make every comparison false).  Modelled from
the ECMAScript StringNumericLiteral grammar: whitespace trimming, empty → 0,
signed decimal with optional fraction and exponent, `Infinity`, and unsigned
`0x`/`0o`/`0b` radix literals; every other string is NaN. -/

/-- Result of the ECMAScript ToNumber coercion on a string. -/
inductive JSNum where
  | nan
  | posInf
  | negInf
  | num (q : ℚ)
deriving DecidableEq, Repr

def isDig (c : Char) : Bool := 48 ≤ c.toNat && c.toNat ≤ 57

def digitVal (c : Char) : Nat := c.toNat - 48

def digitsToNat (ds : List Char) : Nat := ds.foldl (fun a c => 10 * a + digitVal c) 0

def isHexDig (c : Char) : Bool :=
  isDig c || (97 ≤ c.toNat && c.toNat ≤ 102) || (65 ≤ c.toNat && c.toNat ≤ 70)

def hexDigVal (c : Char) : Nat :=
  if isDig c then digitVal c
  else if 97 ≤ c.toNat && c.toNat ≤ 102 then c.toNat - 87
  else c.toNat - 55

def hexDigitsToNat (ds : List Char) : Nat := ds.foldl (fun a c => 16 * a + hexDigVal c) 0

def isOctDig (c : Char) : Bool := 48 ≤ c.toNat && c.toNat ≤ 55

def octDigitsToNat (ds : List Char) : Nat := ds.foldl (fun a c => 8 * a + digitVal c) 0

def isBinDig (c : Char) : Bool := c.toNat = 48 || c.toNat = 49

def binDigitsToNat (ds : List Char) : Nat := ds.foldl (fun a c => 2 * a + digitVal c) 0

/-- JavaScript whitespace characters recognised by ToNumber trimming. -/
def jsIsWS (c : Char) : Bool :=
  c.toNat = 32 || c.toNat = 9 || c.toNat = 10 || c.toNat = 11 || c.toNat = 12 ||
  c.toNat = 13 || c.toNat = 160 || c.toNat = 65279

def trimWS (cs : List Char) : List Char :=
  ((cs.dropWhile jsIsWS).reverse.dropWhile jsIsWS).reverse

/-- Signed decimal exponent after `e`/`E`. -/
def parseExpPart (cs : List Char) : Option Int :=
  match cs with
  | '+' :: ds => if !ds.isEmpty && ds.all isDig then some ((digitsToNat ds : Int)) else none
  | '-' :: ds => if !ds.isEmpty && ds.all isDig then some (-(digitsToNat ds : Int)) else none
  | ds => if !ds.isEmpty && ds.all isDig then some ((digitsToNat ds : Int)) else none

def applyExp (q : ℚ) (e : Int) : ℚ :=
  if 0 ≤ e then q * (10 : ℚ) ^ e.toNat else q / (10 : ℚ) ^ (-e).toNat

/-- Unsigned decimal literal: `digits [. digits] [exp]` or `. digits [exp]`. -/
def parseDecBody (cs : List Char) : Option ℚ :=
  let ip := cs.takeWhile isDig
  let r1 := cs.dropWhile isDig
  if r1 = [] then
    if ip.isEmpty then none else some ((digitsToNat ip : ℚ))
  else if r1.take 1 = ['.'] then
    let r2 := r1.drop 1
    let fp := r2.takeWhile isDig
    let r3 := r2.dropWhile isDig
    let mant : ℚ := (digitsToNat ip : ℚ) + (digitsToNat fp : ℚ) / (10 : ℚ) ^ fp.length
    if ip.isEmpty && fp.isEmpty then none
    else if r3 = [] then some mant
    else if r3.take 1 = ['e'] ∨ r3.take 1 = ['E'] then
      (parseExpPart (r3.drop 1)).map (applyExp mant)
    else none
  else if (r1.take 1 = ['e'] ∨ r1.take 1 = ['E']) ∧ ip.isEmpty = false then
    (parseExpPart (r1.drop 1)).map (applyExp ((digitsToNat ip : ℚ)))
  else none

def infinityChars : List Char := ['I', 'n', 'f', 'i', 'n', 'i', 't', 'y']

/-- Unsigned decimal literal or `Infinity`. -/
def parseDecOrInf (cs : List Char) : JSNum :=
  if cs = infinityChars then .posInf
  else
    match parseDecBody cs with
    | some q => .num q
    | none => .nan

def jsNegate : JSNum → JSNum
  | .nan => .nan
  | .posInf => .negInf
  | .negInf => .posInf
  | .num q => .num (-q)

/-- ToNumber on an already-trimmed character list. -/
def jsToNumList (cs : List Char) : JSNum :=
  if cs = [] then .num 0
  else if cs.take 1 = ['+'] then parseDecOrInf (cs.drop 1)
  else if cs.take 1 = ['-'] then jsNegate (parseDecOrInf (cs.drop 1))
  else if cs.take 2 = ['0', 'x'] ∨ cs.take 2 = ['0', 'X'] then
    (if !(cs.drop 2).isEmpty && (cs.drop 2).all isHexDig then
      .num ((hexDigitsToNat (cs.drop 2) : ℚ)) else .nan)
  else if cs.take 2 = ['0', 'o'] ∨ cs.take 2 = ['0', 'O'] then
    (if !(cs.drop 2).isEmpty && (cs.drop 2).all isOctDig then
      .num ((octDigitsToNat (cs.drop 2) : ℚ)) else .nan)
  else if cs.take 2 = ['0', 'b'] ∨ cs.take 2 = ['0', 'B'] then
    (if !(cs.drop 2).isEmpty && (cs.drop 2).all isBinDig then
      .num ((binDigitsToNat (cs.drop 2) : ℚ)) else .nan)
  else parseDecOrInf cs

/-- ECMAScript ToNumber on a string. -/
def jsToNumber (s : String) : JSNum := jsToNumList (trimWS s.data)

/-- JavaScript `a <= n` for a coerced left operand and a finite number literal
`n` (NaN makes the comparison false). -/
def jsNumLe (a : JSNum) (n : ℚ) : Bool :=
  match a with
  | .nan => false
  | .posInf => false
  | .negInf => true
  | .num q => decide (q ≤ n)

/-- JavaScript `a > n` for a coerced left operand and a finite number literal. -/
def jsNumGt (a : JSNum) (n : ℚ) : Bool :=
  match a with
  | .nan => false
  | .posInf => true
  | .negInf => false
  | .num q => decide (n < q)

/-! ### ethers.utils.parseEther, modelled

Modelled from the ethers v5 library (external dependency): `parseEther v` is
`parseFixed v 18`, which accepts only strings matching `-?[0-9.]+` with at
most one decimal point and at most 18 (non-trailing-zero) fraction digits, and
throws an argument error otherwise. -/

def isFixedChar (c : Char) : Bool := isDig c || c = '.'

/-- Leading minus sign split, as `value.substring` does in `parseFixed`. -/
def stripNeg (cs : List Char) : Bool × List Char :=
  match cs with
  | '-' :: rest => (true, rest)
  | _ => (false, cs)

/-- Characters before the first `sep`, and (when present) those after it. -/
def splitFirst (sep : Char) : List Char → List Char × Option (List Char)
  | [] => ([], none)
  | c :: cs =>
    if c = sep then ([], some cs)
    else
      let p := splitFirst sep cs
      (c :: p.1, p.2)

def dropTrailingZeros (cs : List Char) : List Char :=
  (cs.reverse.dropWhile (fun c => c = '0')).reverse

def padToLen (cs : List Char) (n : Nat) : List Char :=
  cs ++ List.replicate (n - cs.length) '0'

def tenPow (n : Nat) : Int := (10 : Int) ^ n

def parseFixed (s : String) (decimals : Nat) : Except String Int :=
  let p := stripNeg s.data
  let negative := p.1
  let body := p.2
  if body.isEmpty || !body.all isFixedChar then .error "invalid decimal value"
  else if body = ['.'] then .error "missing value"
  else
    match splitFirst '.' body with
    | (whole, some rest) =>
      if '.' ∈ rest then .error "too many decimal points"
      else
        let fraction := dropTrailingZeros rest
        if fraction.length > decimals then .error "fractional component exceeds decimals"
        else
          let wei : Int :=
            (digitsToNat whole : Int) * tenPow decimals +
              (digitsToNat (padToLen fraction decimals) : Int)
          .ok (if negative then -wei else wei)
    | (whole, none) =>
      let wei : Int := (digitsToNat whole : Int) * tenPow decimals
      .ok (if negative then -wei else wei)

def parseEther (s : String) : Except String Int := parseFixed s 18

/-! ### The controller operations -/

/-- Outcome of one `fetch` call: the promise rejected, the response arrived
with `ok = false`, the response was `ok` but `.json()` threw, or the parsed
payload was obtained. -/
inductive FetchOutcome (α : Type) where
  | fault (msg : String)
  | notOk
  | okBadJson
  | ok (data : α)
deriving Repr

/-- Relevant fields of the `/api/contract-info` payload. -/
structure ContractInfoData where
  address : String
  explorerUrl : String
deriving DecidableEq, Repr

structure LoadResult where
  state : AppState
  contractLinkHref : Option String
  consoleLogged : Bool
deriving Repr

/-- `loadContractInfo`: `Promise.all` of the two fetches — a rejection of
either one jumps to the single `catch` (logged, nothing populated); otherwise
each payload is processed in order, each behind its own `response.ok` check. -/
def loadContractInfo (r1 : FetchOutcome ContractInfoData) (r2 : FetchOutcome ABI)
    (s : AppState) : LoadResult :=
  match r1, r2 with
  | .fault _, _ => ⟨s, none, true⟩
  | _, .fault _ => ⟨s, none, true⟩
  | _, _ =>
    match r1 with
    | .okBadJson => ⟨s, none, true⟩
    | .ok d =>
      let s1 := { s with contractAddress := some d.address }
      match r2 with
      | .okBadJson => ⟨s1, some d.explorerUrl, true⟩
      | .ok a => ⟨{ s1 with contractABI := some a }, some d.explorerUrl, false⟩
      | _ => ⟨s1, some d.explorerUrl, false⟩
    | _ =>
      match r2 with
      | .okBadJson => ⟨s, none, true⟩
      | .ok a => ⟨{ s with contractABI := some a }, none, false⟩
      | _ => ⟨s, none, false⟩

/-- Outcomes of the awaits performed by `connectWallet` (and by the `updateUI`
call on its success path). -/
structure ConnectEnv where
  ethereumPresent : Bool
  requestAccountsResult : Except String Unit
  getAddressResult : Except String String
  getNetworkResult : Except String Nat
  updateUIResult : Except String Unit

/-- `connectWallet(requestConnection)`: the try-block sequence; any thrown
error lands in the catch, which writes the connection-failed status. -/
def connectWallet (env : ConnectEnv) (requestConnection : Bool) (s : AppState) :
    AppState × List StatusWrite :=
  if !env.ethereumPresent then
    (s, [⟨"connectionStatus", "Connection failed: Please install MetaMask", .error⟩])
  else
    match (if requestConnection then env.requestAccountsResult else .ok ()) with
    | .error msg => (s, [⟨"connectionStatus", "Connection failed: " ++ msg, .error⟩])
    | .ok _ =>
      let s1 := { s with provider := some (), signer := some () }
      match env.getAddressResult with
      | .error msg => (s1, [⟨"connectionStatus", "Connection failed: " ++ msg, .error⟩])
      | .ok addr =>
        let s2 := { s1 with userAddress := some addr }
        match env.getNetworkResult with
        | .error msg => (s2, [⟨"connectionStatus", "Connection failed: " ++ msg, .error⟩])
        | .ok chainId =>
          if chainId ≠ 41454 then
            (s2, [⟨"connectionStatus", "Please switch to Monad Testnet", .error⟩])
          else
            let s3 :=
              match s2.contractAddress, s2.contractABI with
              | some a, some abi => { s2 with contract := some (⟨a, abi⟩ : ContractHandle) }
              | _, _ => s2
            match env.updateUIResult with
            | .error msg => (s3, [⟨"connectionStatus", "Connection failed: " ++ msg, .error⟩])
            | .ok _ => (s3, [⟨"connectionStatus", "Wallet connected successfully!", .success⟩])

/-- Outcomes of the two reads performed by `updateTokenInfo`. -/
structure TokenInfoEnv where
  balanceOfResult : Except String Int
  whitelistResult : Except String Bool

/-- `updateTokenInfo`: reads are sequential inside one try/catch, so a failing
balance read aborts the whitelist read; only the calls issued are modelled. -/
def updateTokenInfo (env : TokenInfoEnv) (s : AppState) : List NetworkCall :=
  match s.contract, s.userAddress with
  | some _, some addr =>
    (match env.balanceOfResult with
     | .error _ => [.balanceOf addr]
     | .ok _ => [.balanceOf addr, .whitelistQuery addr])
  | _, _ => []

/-- `addTransaction(type, hash, details)` record construction (`new Date()`
is the `now` oracle). -/
def mkTxRecord (type hash details : String) (now : Nat) : TxRecord :=
  ⟨type, hash, details, now⟩

/-- `addTransaction` unshifts the new record onto `this.txHistory`. -/
def addTransaction (type hash details : String) (now : Nat) (s : AppState) : AppState :=
  { s with txHistory := mkTxRecord type hash details now :: s.txHistory }

/-- The observable outcome of one mutation operation: the state afterwards,
the network calls issued, and the status-slot writes, in order. -/
structure OpResult where
  state : AppState
  calls : List NetworkCall
  statuses : List StatusWrite
deriving Repr

/-- Outcomes of the awaits performed by `mintTokens`. -/
structure MintEnv where
  mintAmountValue : String
  whitelistMintResult : Except String String
  waitResult : Except String Unit
  tokenInfo : TokenInfoEnv
  now : Nat

/-- `mintTokens`: guard on `this.contract`, JavaScript-coerced amount checks,
then the try-block with submission, pending record, confirmation wait. -/
def mintTokens (env : MintEnv) (s : AppState) : OpResult :=
  match s.contract with
  | none => ⟨s, [], []⟩
  | some _ =>
    let amount := env.mintAmountValue
    if amount = "" ∨ jsNumLe (jsToNumber amount) 0 = true then
      ⟨s, [], [⟨"mintStatus", "Please enter a valid amount", .error⟩]⟩
    else if jsNumGt (jsToNumber amount) 1000 = true then
      ⟨s, [], [⟨"mintStatus", "Maximum mint amount is 1000 tokens", .error⟩]⟩
    else
      let minting : StatusWrite := ⟨"mintStatus", "Minting tokens...", .info⟩
      match parseEther amount with
      | .error msg =>
        ⟨s, [], [minting, ⟨"mintStatus", "Mint failed: " ++ msg, .error⟩]⟩
      | .ok mintAmount =>
        match env.whitelistMintResult with
        | .error msg =>
          ⟨s, [.submitMint mintAmount],
            [minting, ⟨"mintStatus", "Mint failed: " ++ msg, .error⟩]⟩
        | .ok txHash =>
          let sent : StatusWrite := ⟨"mintStatus", "Transaction sent: " ++ txHash, .info⟩
          let s1 := addTransaction "Mint" txHash (amount ++ " CHAL") env.now s
          match env.waitResult with
          | .error msg =>
            ⟨s1, [.submitMint mintAmount, .waitForConfirmation txHash],
              [minting, sent, ⟨"mintStatus", "Mint failed: " ++ msg, .error⟩]⟩
          | .ok _ =>
            ⟨s1, [.submitMint mintAmount, .waitForConfirmation txHash] ++
                updateTokenInfo env.tokenInfo s1,
              [minting, sent,
                ⟨"mintStatus", "Successfully minted " ++ amount ++ " CHAL tokens!", .success⟩]⟩

/-- `formatAddress`: first six characters, ellipsis, last four characters. -/
def formatAddress (address : String) : String :=
  ⟨address.data.take 6⟩ ++ "..." ++ ⟨address.data.drop (address.data.length - 4)⟩

/-- Outcomes of the awaits performed by `transferTokens`; `isAddress` is the
`ethers.utils.isAddress` predicate of the external library, kept opaque. -/
structure TransferEnv where
  transferToValue : String
  transferAmountValue : String
  isAddress : String → Bool
  transferResult : Except String String
  waitResult : Except String Unit
  tokenInfo : TokenInfoEnv
  now : Nat

/-- `transferTokens`: guard on `this.contract`, address and amount validation,
then the try-block (submission, pending record, confirmation wait; the form
clearing on success is a presentation effect, not modelled). -/
def transferTokens (env : TransferEnv) (s : AppState) : OpResult :=
  match s.contract with
  | none => ⟨s, [], []⟩
  | some _ =>
    let dest := env.transferToValue
    let amount := env.transferAmountValue
    if dest = "" ∨ env.isAddress dest = false then
      ⟨s, [], [⟨"transferStatus", "Please enter a valid address", .error⟩]⟩
    else if amount = "" ∨ jsNumLe (jsToNumber amount) 0 = true then
      ⟨s, [], [⟨"transferStatus", "Please enter a valid amount", .error⟩]⟩
    else
      let transferring : StatusWrite := ⟨"transferStatus", "Transferring tokens...", .info⟩
      match parseEther amount with
      | .error msg =>
        ⟨s, [], [transferring, ⟨"transferStatus", "Transfer failed: " ++ msg, .error⟩]⟩
      | .ok transferAmount =>
        match env.transferResult with
        | .error msg =>
          ⟨s, [.submitTransfer dest transferAmount],
            [transferring, ⟨"transferStatus", "Transfer failed: " ++ msg, .error⟩]⟩
        | .ok txHash =>
          let sent : StatusWrite := ⟨"transferStatus", "Transaction sent: " ++ txHash, .info⟩
          let s1 := addTransaction "Transfer" txHash
            (amount ++ " CHAL to " ++ formatAddress dest) env.now s
          match env.waitResult with
          | .error msg =>
            ⟨s1, [.submitTransfer dest transferAmount, .waitForConfirmation txHash],
              [transferring, sent, ⟨"transferStatus", "Transfer failed: " ++ msg, .error⟩]⟩
          | .ok _ =>
            ⟨s1, [.submitTransfer dest transferAmount, .waitForConfirmation txHash] ++
                updateTokenInfo env.tokenInfo s1,
              [transferring, sent,
                ⟨"transferStatus",
                  "Successfully transferred " ++ amount ++ " CHAL!", .success⟩]⟩

/-- The chain-parameter object hard-coded in `addNetwork`. -/
def monadChainParams : AddChainParams :=
  { chainId := "0xA1F6", chainName := "Monad Testnet", currencyName := "Monad"
    currencySymbol := "MON", currencyDecimals := 18
    rpcUrls := ["https://testnet1.monad.xyz"]
    blockExplorerUrls := ["https://explorer-testnet.monad.xyz"] }

structure AddNetworkEnv where
  addChainResult : Except String Unit

/-- `addNetwork`: one `wallet_addEthereumChain` request with the fixed
parameters; success/failure goes to `alert`, never to a status slot, and the
session state is untouched. -/
def addNetwork (env : AddNetworkEnv) (s : AppState) : OpResult :=
  match env.addChainResult with
  | .ok _ => ⟨s, [.addEthereumChain monadChainParams], []⟩
  | .error _ => ⟨s, [.addEthereumChain monadChainParams], []⟩

/-- Numeric value of a `0x`-prefixed chain-id string. -/
def hexChainIdToNat (s : String) : Nat := hexDigitsToNat (s.data.drop 2)

/-! ### Status slots and the auto-dismiss timer -/

structure SlotState where
  content : String
  kind : StatusType
  hidden : Bool
deriving DecidableEq, Repr

/-- The presentation surface: each named slot's state, plus the multiset of
auto-dismiss timers currently scheduled (one per `setTimeout` not yet fired). -/
structure UIState where
  slots : String → SlotState
  pendingTimers : List String

/-- `showStatus`: writes the slot, unhides it, and — only for a success
message — schedules a hide timer; no timer is ever cleared. -/
def showStatus (ui : UIState) (elementId message : String) (kind : StatusType) : UIState :=
  { slots := fun id => if id = elementId then ⟨message, kind, false⟩ else ui.slots id
    pendingTimers :=
      if kind = .success then ui.pendingTimers ++ [elementId] else ui.pendingTimers }

/-- A scheduled timer fires: it adds the `hidden` class to its element,
whatever that element currently shows. -/
def fireTimer (ui : UIState) (elementId : String) : UIState :=
  { slots := fun id =>
      if id = elementId then { ui.slots id with hidden := true } else ui.slots id
    pendingTimers := ui.pendingTimers.erase elementId }

/-- `updateTransactionHistory`: the rendered entries (`txHistory.slice(0, 10)`)
and whether the empty-history placeholder is shown instead. -/
def updateTransactionHistory (h : List TxRecord) : List TxRecord × Bool :=
  if h.isEmpty then ([], true) else (h.take 10, false)

/-! ### Helper lemmas about the two string parsers -/

theorem dropWhile_eq_self_of_none {p : Char → Bool} :
    ∀ (l : List Char), (∀ c ∈ l, p c = false) → l.dropWhile p = l := by
  intro l h
  induction l with
  | nil => rfl
  | cons c t _ =>
    apply List.dropWhile_cons_of_neg
    simp [h c (List.mem_cons_self c t)]

theorem trimWS_eq_self (cs : List Char) (h : ∀ c ∈ cs, jsIsWS c = false) :
    trimWS cs = cs := by
  unfold trimWS
  rw [dropWhile_eq_self_of_none _ h,
    dropWhile_eq_self_of_none _ (fun c hc => h c (List.mem_reverse.mp hc)),
    List.reverse_reverse]

theorem takeWhile_eq_self_of_all {p : Char → Bool} :
    ∀ (l : List Char), (∀ c ∈ l, p c = true) → l.takeWhile p = l := by
  intro l h
  induction l with
  | nil => rfl
  | cons c t ih =>
    rw [List.takeWhile_cons_of_pos (h c (List.mem_cons_self c t))]
    rw [ih (fun x hx => h x (List.mem_cons_of_mem c hx))]

theorem dropWhile_eq_nil_of_all {p : Char → Bool} :
    ∀ (l : List Char), (∀ c ∈ l, p c = true) → l.dropWhile p = [] := by
  intro l h
  induction l with
  | nil => rfl
  | cons c t ih =>
    rw [List.dropWhile_cons_of_pos (h c (List.mem_cons_self c t))]
    exact ih (fun x hx => h x (List.mem_cons_of_mem c hx))

theorem takeWhile_append_of_all {p : Char → Bool} :
    ∀ (l1 l2 : List Char), (∀ c ∈ l1, p c = true) →
      (l1 ++ l2).takeWhile p = l1 ++ l2.takeWhile p := by
  intro l1 l2 h
  induction l1 with
  | nil => rfl
  | cons c t ih =>
    rw [List.cons_append, List.takeWhile_cons_of_pos (h c (List.mem_cons_self c t)),
      ih (fun x hx => h x (List.mem_cons_of_mem c hx)), List.cons_append]

theorem dropWhile_append_of_all {p : Char → Bool} :
    ∀ (l1 l2 : List Char), (∀ c ∈ l1, p c = true) →
      (l1 ++ l2).dropWhile p = l2.dropWhile p := by
  intro l1 l2 h
  induction l1 with
  | nil => rfl
  | cons c t ih =>
    rw [List.cons_append, List.dropWhile_cons_of_pos (h c (List.mem_cons_self c t)),
      ih (fun x hx => h x (List.mem_cons_of_mem c hx))]

theorem stripNeg_spec (cs : List Char) (n : Bool) (b : List Char)
    (h : stripNeg cs = (n, b)) : cs = if n then '-' :: b else b := by
  unfold stripNeg at h
  split at h
  · rename_i rest
    cases h
    simp
  · cases h
    simp

theorem splitFirst_none_spec {sep : Char} :
    ∀ (cs a : List Char), splitFirst sep cs = (a, none) → cs = a ∧ sep ∉ a := by
  intro cs
  induction cs with
  | nil =>
    intro a h
    unfold splitFirst at h
    simp only [Prod.mk.injEq] at h
    rcases h with ⟨h1, _⟩
    subst h1
    simp
  | cons c t ih =>
    intro a h
    unfold splitFirst at h
    by_cases hc : c = sep
    · rw [if_pos hc] at h
      simp only [Prod.mk.injEq] at h
      exact absurd h.2 (by simp)
    · rw [if_neg hc] at h
      rcases hst : splitFirst sep t with ⟨a2, r2⟩
      rw [hst] at h
      simp only [Prod.mk.injEq] at h
      rcases h with ⟨h1, h2⟩
      subst h2
      rcases ih a2 hst with ⟨h3, h4⟩
      subst h1
      refine ⟨by rw [h3], ?_⟩
      simp only [List.mem_cons]
      rintro (rfl | hmem)
      · exact hc rfl
      · exact h4 hmem

theorem splitFirst_some_spec {sep : Char} :
    ∀ (cs a r : List Char), splitFirst sep cs = (a, some r) →
      cs = a ++ sep :: r ∧ sep ∉ a := by
  intro cs
  induction cs with
  | nil =>
    intro a r h
    unfold splitFirst at h
    simp only [Prod.mk.injEq] at h
    exact absurd h.2 (by simp)
  | cons c t ih =>
    intro a r h
    unfold splitFirst at h
    by_cases hc : c = sep
    · rw [if_pos hc] at h
      simp only [Prod.mk.injEq, Option.some.injEq] at h
      rcases h with ⟨h1, h2⟩
      subst h1
      subst h2
      subst hc
      simp
    · rw [if_neg hc] at h
      rcases hst : splitFirst sep t with ⟨a2, r2⟩
      rw [hst] at h
      simp only [Prod.mk.injEq] at h
      rcases h with ⟨h1, h2⟩
      subst h2
      rcases ih a2 r hst with ⟨h3, h4⟩
      subst h1
      refine ⟨by rw [List.cons_append, h3], ?_⟩
      simp only [List.mem_cons]
      rintro (rfl | hmem)
      · exact hc rfl
      · exact h4 hmem

theorem parseDecBody_digits (ds : List Char) (hne : ds ≠ [])
    (hall : ∀ c ∈ ds, isDig c = true) : ∃ q, parseDecBody ds = some q := by
  refine ⟨(digitsToNat ds : ℚ), ?_⟩
  unfold parseDecBody
  simp only [dropWhile_eq_nil_of_all ds hall, takeWhile_eq_self_of_all ds hall]
  simp [hne]

theorem parseDecBody_dot (pre post : List Char) (hpre : ∀ c ∈ pre, isDig c = true)
    (hpost : ∀ c ∈ post, isDig c = true) (hne : ¬(pre = [] ∧ post = [])) :
    ∃ q, parseDecBody (pre ++ '.' :: post) = some q := by
  refine ⟨(digitsToNat pre : ℚ) + (digitsToNat post : ℚ) / (10 : ℚ) ^ post.length, ?_⟩
  have hdot : isDig '.' = false := by decide
  have hne' : (pre.isEmpty && post.isEmpty) = false := by
    rcases pre with _ | ⟨c, t⟩
    · rcases post with _ | ⟨d, u⟩
      · exact absurd ⟨rfl, rfl⟩ hne
      · simp
    · simp
  unfold parseDecBody
  simp only [dropWhile_append_of_all pre _ hpre, takeWhile_append_of_all pre _ hpre]
  simp [hdot, hne', dropWhile_eq_nil_of_all post hpost, takeWhile_eq_self_of_all post hpost]

theorem ne_infinity_of_all_fixed (cs : List Char)
    (hall : ∀ c ∈ cs, isFixedChar c = true) : cs ≠ infinityChars := by
  intro hEq
  have hI : isFixedChar 'I' = true := by
    apply hall
    rw [hEq]
    simp [infinityChars]
  exact absurd hI (by decide)

theorem parseDecOrInf_num (cs : List Char) (hall : ∀ c ∈ cs, isFixedChar c = true)
    (hdb : ∃ q, parseDecBody cs = some q) : ∃ q, parseDecOrInf cs = .num q := by
  rcases hdb with ⟨q, hq⟩
  refine ⟨q, ?_⟩
  unfold parseDecOrInf
  rw [if_neg (ne_infinity_of_all_fixed cs hall), hq]

theorem take_ne_of_notFixed (body : List Char) (hall : ∀ c ∈ body, isFixedChar c = true)
    (n : Nat) (l : List Char) (c : Char) (hc : c ∈ l) (hfc : isFixedChar c = false) :
    body.take n ≠ l := by
  intro hEq
  have h1 : c ∈ body.take n := hEq.symm ▸ hc
  have h2 := hall c (List.mem_of_mem_take h1)
  rw [h2] at hfc
  exact Bool.noConfusion hfc

theorem jsToNumList_decimal (cs : List Char) (hne : cs ≠ [])
    (hall : ∀ c ∈ cs, isFixedChar c = true) (hdb : ∃ q, parseDecBody cs = some q) :
    ∃ q, jsToNumList cs = .num q := by
  rcases parseDecOrInf_num cs hall hdb with ⟨q, hq⟩
  refine ⟨q, ?_⟩
  have hx : ¬(cs.take 2 = ['0', 'x'] ∨ cs.take 2 = ['0', 'X']) := by
    rintro (h | h)
    · exact take_ne_of_notFixed cs hall 2 ['0', 'x'] 'x' (by simp) (by decide) h
    · exact take_ne_of_notFixed cs hall 2 ['0', 'X'] 'X' (by simp) (by decide) h
  have ho : ¬(cs.take 2 = ['0', 'o'] ∨ cs.take 2 = ['0', 'O']) := by
    rintro (h | h)
    · exact take_ne_of_notFixed cs hall 2 ['0', 'o'] 'o' (by simp) (by decide) h
    · exact take_ne_of_notFixed cs hall 2 ['0', 'O'] 'O' (by simp) (by decide) h
  have hb : ¬(cs.take 2 = ['0', 'b'] ∨ cs.take 2 = ['0', 'B']) := by
    rintro (h | h)
    · exact take_ne_of_notFixed cs hall 2 ['0', 'b'] 'b' (by simp) (by decide) h
    · exact take_ne_of_notFixed cs hall 2 ['0', 'B'] 'B' (by simp) (by decide) h
  unfold jsToNumList
  rw [if_neg hne,
    if_neg (take_ne_of_notFixed cs hall 1 ['+'] '+' (by simp) (by decide)),
    if_neg (take_ne_of_notFixed cs hall 1 ['-'] '-' (by simp) (by decide)),
    if_neg hx, if_neg ho, if_neg hb, hq]

theorem jsToNumList_neg (body : List Char) :
    jsToNumList ('-' :: body) = jsNegate (parseDecOrInf body) := by
  unfold jsToNumList
  rw [if_neg (by simp), if_neg (by simp [List.take]), if_pos (by simp [List.take])]
  simp

theorem ws_false_of_fixed (c : Char) (h : isFixedChar c = true) : jsIsWS c = false := by
  simp only [isFixedChar, isDig, Bool.or_eq_true, Bool.and_eq_true, decide_eq_true_eq] at h
  simp only [jsIsWS, Bool.or_eq_false_iff, decide_eq_false_iff_not]
  rcases h with ⟨h1, h2⟩ | rfl
  · omega
  · decide

theorem jsToNumber_not_nan_of_decimal (s : String) (neg : Bool) (body : List Char)
    (hsdata : s.data = if neg then '-' :: body else body)
    (hne : body ≠ []) (hall : ∀ c ∈ body, isFixedChar c = true)
    (hdb : ∃ q, parseDecBody body = some q) : jsToNumber s ≠ .nan := by
  have hnws : ∀ c ∈ s.data, jsIsWS c = false := by
    intro c hc
    rw [hsdata] at hc
    cases neg with
    | false => exact ws_false_of_fixed c (hall c (by simpa using hc))
    | true =>
      simp only [if_pos rfl] at hc
      rcases List.mem_cons.mp hc with rfl | hc2
      · decide
      · exact ws_false_of_fixed c (hall c hc2)
  rw [jsToNumber, trimWS_eq_self s.data hnws, hsdata]
  cases neg with
  | false =>
    rcases jsToNumList_decimal body hne hall hdb with ⟨q, hq⟩
    simp [hq]
  | true =>
    rcases parseDecOrInf_num body hall hdb with ⟨q, hq⟩
    simp [jsToNumList_neg, hq, jsNegate]

/-- If `parseEther` accepts a string then JavaScript ToNumber does not map it
to NaN: the source strings that slip past the NaN-blind amount comparisons
always make the base-unit conversion throw. -/
theorem parseFixed_ok_not_nan (s : String) (v : Int) (h : parseFixed s 18 = .ok v) :
    jsToNumber s ≠ .nan := by
  unfold parseFixed at h
  rcases hsn : stripNeg s.data with ⟨neg, body⟩
  rw [hsn] at h
  dsimp only at h
  by_cases h1 : (body.isEmpty || !body.all isFixedChar) = true
  · rw [if_pos h1] at h
    exact absurd h (by simp)
  rw [if_neg h1] at h
  have h1' : (body.isEmpty || !body.all isFixedChar) = false := eq_false_of_ne_true h1
  rw [Bool.or_eq_false_iff] at h1'
  obtain ⟨hne0, hall0⟩ := h1'
  have hne : body ≠ [] := by simpa using hne0
  have hall : ∀ c ∈ body, isFixedChar c = true := by
    have hb : body.all isFixedChar = true := by simpa using hall0
    intro c hc
    exact List.all_eq_true.mp hb c hc
  by_cases h2 : body = ['.']
  · rw [if_pos h2] at h
    exact absurd h (by simp)
  rw [if_neg h2] at h
  have hsdata := stripNeg_spec s.data neg body hsn
  rcases hsp : splitFirst '.' body with ⟨whole, rest⟩
  rw [hsp] at h
  rcases rest with _ | rest
  · -- no decimal point: the body is a nonempty run of digits
    rcases splitFirst_none_spec body whole hsp with ⟨hbw, hdotnot⟩
    have hdig : ∀ c ∈ body, isDig c = true := by
      intro c hc
      have hf := hall c hc
      have hcne : c ≠ '.' := by
        intro hEq
        subst hEq
        rw [hbw] at hc
        exact hdotnot hc
      simp only [isFixedChar, Bool.or_eq_true, decide_eq_true_eq] at hf
      rcases hf with hf | hf
      · exact hf
      · exact absurd hf hcne
    exact jsToNumber_not_nan_of_decimal s neg body hsdata hne hall
      (parseDecBody_digits body hne hdig)
  · -- one decimal point: digits, dot, digits
    rcases splitFirst_some_spec body whole rest hsp with ⟨hbw, hdotnot⟩
    dsimp only at h
    by_cases h3 : ('.' : Char) ∈ rest
    · rw [if_pos h3] at h
      exact absurd h (by simp)
    rw [if_neg h3] at h
    have hpre : ∀ c ∈ whole, isDig c = true := by
      intro c hc
      have hf := hall c (by rw [hbw]; exact List.mem_append_left _ hc)
      simp only [isFixedChar, Bool.or_eq_true, decide_eq_true_eq] at hf
      rcases hf with hf | hf
      · exact hf
      · exact absurd (hf ▸ hc) hdotnot
    have hpost : ∀ c ∈ rest, isDig c = true := by
      intro c hc
      have hf := hall c (by
        rw [hbw]
        exact List.mem_append_right _ (List.mem_cons_of_mem _ hc))
      simp only [isFixedChar, Bool.or_eq_true, decide_eq_true_eq] at hf
      rcases hf with hf | hf
      · exact hf
      · exact absurd (hf ▸ hc) h3
    have hnboth : ¬(whole = [] ∧ rest = []) := by
      rintro ⟨rfl, rfl⟩
      exact h2 (by simpa using hbw)
    exact jsToNumber_not_nan_of_decimal s neg body hsdata hne hall
      (hbw ▸ parseDecBody_dot whole rest hpre hpost hnboth)

/-- Contrapositive form used for C10 and C2: a nonempty NaN-coerced amount
string always makes `parseEther` fail. -/
theorem parseEther_error_of_nan (s : String) (hnan : jsToNumber s = .nan) :
    ∃ e, parseEther s = .error e := by
  rcases h : parseEther s with e | v
  · exact ⟨e, rfl⟩
  · exact absurd hnan (parseFixed_ok_not_nan s v h)

/-! ### Claim theorems -/

/-- A connected-session fixture used by concrete witnesses. -/
def connectedState : AppState :=
  { provider := some (), signer := some ()
    contract := some ⟨"0xC0de", "abiJson"⟩
    contractAddress := some "0xC0de", contractABI := some "abiJson"
    userAddress := some "0xUserAddr", txHistory := [] }

/-- Claim C5 counterexample: when the contract-info fetch rejects (a network
fault) while the interface-descriptor fetch succeeds, the ABI session field
is left absent anyway — the two loads are not independent — although the same
successful descriptor response does populate the field when the other fetch
merely returns a non-success status. -/
theorem C5_counterexample :
    (loadContractInfo (.fault "network error") (.ok "theAbi") initialState).state.contractABI
        = none ∧
    (loadContractInfo .notOk (.ok "theAbi") initialState).state.contractABI = some "theAbi" :=
  ⟨rfl, rfl⟩

/-- Claim C5 (amended): both loads are best-effort and never fatal.  For
resolved responses (ok or non-success status) the two fields are populated
independently, each exactly when its own response is successful, and nothing
else of the session changes; but a rejected fetch in either position is
caught by the shared handler, logged, and leaves the whole state unchanged —
so a rejection of one fetch also leaves the other field absent. -/
theorem C5_load_best_effort (r1 : FetchOutcome ContractInfoData) (r2 : FetchOutcome ABI)
    (s : AppState) :
    ((r1 = .notOk ∨ ∃ d, r1 = .ok d) → (r2 = .notOk ∨ ∃ a, r2 = .ok a) →
      (loadContractInfo r1 r2 s).state.contractAddress =
          (match r1 with | .ok d => some d.address | _ => s.contractAddress) ∧
        (loadContractInfo r1 r2 s).state.contractABI =
          (match r2 with | .ok a => some a | _ => s.contractABI) ∧
        (loadContractInfo r1 r2 s).state.txHistory = s.txHistory ∧
        (loadContractInfo r1 r2 s).state.contract = s.contract) ∧
    (∀ m, (r1 = .fault m ∨ r2 = .fault m) →
      (loadContractInfo r1 r2 s).state = s ∧
        (loadContractInfo r1 r2 s).consoleLogged = true) := by
  rcases r1 with m1 | _ | _ | d1 <;> rcases r2 with m2 | _ | _ | d2 <;>
    simp [loadContractInfo]

/-- Claim C5 witness: with a successful info payload and a non-success ABI
response, only the contract address is populated. -/
theorem C5_load_best_effort_witness :
    (loadContractInfo (.ok ⟨"0xC0de", "https://x"⟩) .notOk initialState).state.contractAddress
        = some "0xC0de" ∧
    (loadContractInfo (.ok ⟨"0xC0de", "https://x"⟩) .notOk initialState).state.contractABI
        = none := by
  have h := (C5_load_best_effort (.ok ⟨"0xC0de", "https://x"⟩) .notOk initialState).1
    (Or.inr ⟨⟨"0xC0de", "https://x"⟩, rfl⟩) (Or.inl rfl)
  exact ⟨h.1, h.2.1⟩

/-- Claim C6: the rendered transaction history always has at most 10 entries,
those entries are exactly the first ten records of the log — and since
`addTransaction` unshifts every new record onto the head, the log and hence
the display are in most-recent-first order. -/
theorem C6_history_display_cap (h : List TxRecord) (t ha d : String) (n : Nat)
    (s : AppState) :
    (updateTransactionHistory h).1.length ≤ 10 ∧
    (updateTransactionHistory h).1 = h.take 10 ∧
    (addTransaction t ha d n s).txHistory = mkTxRecord t ha d n :: s.txHistory := by
  refine ⟨?_, ?_, rfl⟩
  · unfold updateTransactionHistory
    split
    · simp
    · simp only
      rw [List.length_take]
      exact min_le_left 10 h.length
  · unfold updateTransactionHistory
    split
    · rename_i hemp
      rw [List.isEmpty_iff.mp hemp]
      rfl
    · rfl

/-- Claim C7: every `addNetwork` run issues exactly one
`wallet_addEthereumChain` request with the hard-coded parameters and leaves
the session (in particular the transaction log) untouched, for any session
state — but the hard-coded chain-id string `0xA1F6` denotes 41462, not the
41454 that its own source comment claims and that `connectWallet` requires. -/
theorem C7_addNetwork_chain_id_mismatch (env : AddNetworkEnv) (s : AppState) :
    (addNetwork env s).calls = [.addEthereumChain monadChainParams] ∧
    (addNetwork env s).state = s ∧
    (addNetwork env s).statuses = [] ∧
    monadChainParams.chainId = "0xA1F6" ∧
    hexChainIdToNat monadChainParams.chainId = 41462 ∧
    hexChainIdToNat monadChainParams.chainId ≠ 41454 ∧
    monadChainParams.rpcUrls = ["https://testnet1.monad.xyz"] ∧
    monadChainParams.blockExplorerUrls = ["https://explorer-testnet.monad.xyz"] := by
  refine ⟨?_, ?_, ?_, rfl, by decide, by decide, rfl, rfl⟩ <;>
    rcases h : env.addChainResult with m | u <;> simp [addNetwork, h]

/-- Claim C8: invoking Mint or Transfer with no bound contract is a complete
no-op — unchanged state, no network call, no status write. -/
theorem C8_no_contract_noop (envM : MintEnv) (envT : TransferEnv) (s : AppState)
    (h : s.contract = none) :
    mintTokens envM s = ⟨s, [], []⟩ ∧ transferTokens envT s = ⟨s, [], []⟩ := by
  unfold mintTokens transferTokens
  rw [h]
  exact ⟨rfl, rfl⟩

/-- Claim C8 witness: the no-op at the freshly constructed state. -/
theorem C8_no_contract_noop_witness :
    mintTokens ⟨"5", .ok "0xh", .ok (), ⟨.ok 0, .ok true⟩, 0⟩ initialState
        = ⟨initialState, [], []⟩ ∧
    transferTokens ⟨"0xdest", "5", fun _ => true, .ok "0xh", .ok (), ⟨.ok 0, .ok true⟩, 0⟩
        initialState = ⟨initialState, [], []⟩ :=
  C8_no_contract_noop _ _ initialState rfl

/-- Claim C9: the auto-dismiss timer scheduled by a success status survives a
later write of a different message to the same slot (it is never canceled),
and when it fires it hides the slot even though the slot now carries the
newer message. -/
theorem C9_success_timer_never_canceled (ui : UIState) (e m1 m2 : String)
    (k2 : StatusType) :
    e ∈ (showStatus (showStatus ui e m1 .success) e m2 k2).pendingTimers ∧
    (fireTimer (showStatus (showStatus ui e m1 .success) e m2 k2) e).slots e =
      ⟨m2, k2, true⟩ := by
  constructor
  · unfold showStatus
    dsimp only
    split <;> simp
  · unfold fireTimer showStatus
    simp

/-- Claim C1 counterexample: a Connect run on active network id 1 (≠ 41454)
does not leave the session in its disconnected pre-state — the cached user
address (like the provider and signer handles) has been populated before the
network check short-circuits. -/
theorem C1_counterexample :
    (connectWallet ⟨true, .ok (), .ok "0xAbCd", .ok 1, .ok ()⟩ true initialState).1.userAddress
        = some "0xAbCd" ∧
    initialState.userAddress = none ∧
    (connectWallet ⟨true, .ok (), .ok "0xAbCd", .ok 1, .ok ()⟩ true initialState).1
        ≠ initialState := by
  refine ⟨rfl, rfl, ?_⟩
  intro h
  have h2 : (some "0xAbCd" : Option String) = none :=
    congrArg AppState.userAddress h
  exact Option.noConfusion h2

/-- Claim C1 (amended): in every Connect run whose steps before the network
check succeed and whose active network id differs from 41454, the run stops
with the wrong-network error and the contract handle is left exactly as it
was (never bound here) — but the provider handle, signer identity and cached
user address have already been populated by then. -/
theorem C1_connect_wrong_network (env : ConnectEnv) (rc : Bool) (s : AppState)
    (addr : String) (cid : Nat)
    (hp : env.ethereumPresent = true)
    (hacc : (if rc then env.requestAccountsResult else .ok ()) = .ok ())
    (haddr : env.getAddressResult = .ok addr)
    (hnet : env.getNetworkResult = .ok cid)
    (hcid : cid ≠ 41454) :
    connectWallet env rc s =
      ({ s with provider := some (), signer := some (), userAddress := some addr },
        [⟨"connectionStatus", "Please switch to Monad Testnet", .error⟩]) := by
  unfold connectWallet
  rw [hp, hacc, haddr, hnet]
  simp [hcid]

/-- Claim C1 witness: the amended statement evaluated on a concrete
wrong-network run (mainnet id 1). -/
theorem C1_connect_wrong_network_witness :
    connectWallet ⟨true, .ok (), .ok "0xAbCd", .ok 1, .ok ()⟩ false connectedState =
      ({ connectedState with
          provider := some (), signer := some (), userAddress := some "0xAbCd" },
        [⟨"connectionStatus", "Please switch to Monad Testnet", .error⟩]) :=
  C1_connect_wrong_network ⟨true, .ok (), .ok "0xAbCd", .ok 1, .ok ()⟩ false
    connectedState "0xAbCd" 1 rfl rfl rfl rfl (by decide)

/-- Claim C2 counterexample: the amount `"abc"` is not a positive number, yet
Mint does not fail with the validation error and does not stop before the
try-block — it writes the Minting info status and then reports the base-unit
conversion failure as a mint failure. -/
theorem C2_counterexample :
    (mintTokens ⟨"abc", .ok "0xhash1", .ok (), ⟨.ok 0, .ok true⟩, 0⟩ connectedState).statuses =
      [⟨"mintStatus", "Minting tokens...", .info⟩,
       ⟨"mintStatus", "Mint failed: invalid decimal value", .error⟩] := by
  rfl

/-- Claim C2 (amended): with a contract bound, Mint fails validation — one
validation-error status, zero network calls, unchanged state — exactly when
the amount string is empty or its JavaScript numeric coercion satisfies
`≤ 0` or `> 1000`; every amount whose coercion is a number q with
0 < q ≤ 1000 proceeds into the submission path, and so does every nonempty
NaN-coercing amount, because NaN makes both comparisons false. -/
theorem C2_mint_validation (env : MintEnv) (s : AppState) (c : ContractHandle)
    (hc : s.contract = some c) :
    ((env.mintAmountValue = "" ∨ jsNumLe (jsToNumber env.mintAmountValue) 0 = true) →
      mintTokens env s =
        ⟨s, [], [⟨"mintStatus", "Please enter a valid amount", .error⟩]⟩) ∧
    (¬env.mintAmountValue = "" → jsNumLe (jsToNumber env.mintAmountValue) 0 = false →
      jsNumGt (jsToNumber env.mintAmountValue) 1000 = true →
      mintTokens env s =
        ⟨s, [], [⟨"mintStatus", "Maximum mint amount is 1000 tokens", .error⟩]⟩) ∧
    (∀ q : ℚ, jsToNumber env.mintAmountValue = .num q → 0 < q → q ≤ 1000 →
      (mintTokens env s).statuses.head? =
        some ⟨"mintStatus", "Minting tokens...", .info⟩) ∧
    (jsToNumber env.mintAmountValue = .nan → ¬env.mintAmountValue = "" →
      (mintTokens env s).statuses.head? =
        some ⟨"mintStatus", "Minting tokens...", .info⟩) := by
  unfold mintTokens
  rw [hc]
  dsimp only
  refine ⟨?_, ?_, ?_, ?_⟩
  · intro hrej
    rw [if_pos hrej]
  · intro h1 h2 h3
    rw [if_neg (by simp [h1, h2]), if_pos h3]
  · intro q hq hq0 hq1000
    have hne : ¬env.mintAmountValue = "" := by
      intro hEq
      rw [hEq] at hq
      have : jsToNumber "" = JSNum.num 0 := rfl
      rw [this] at hq
      injection hq with hq2
      rw [← hq2] at hq0
      exact lt_irrefl 0 hq0
    rw [if_neg (by simp [hne, hq, jsNumLe, not_le.mpr hq0]),
      if_neg (by simp [hq, jsNumGt, not_lt.mpr hq1000])]
    rcases parseEther env.mintAmountValue with e | amt
    · rfl
    · rcases env.whitelistMintResult with msg | hash
      · rfl
      · rcases env.waitResult with msg | u <;> rfl
  · intro hnan hne
    rw [if_neg (by simp [hne, hnan, jsNumLe]), if_neg (by simp [hnan, jsNumGt])]
    rcases parseEther env.mintAmountValue with e | amt
    · rfl
    · rcases env.whitelistMintResult with msg | hash
      · rfl
      · rcases env.waitResult with msg | u <;> rfl

/-- Claim C2 witness: the amended statement evaluated at the over-ceiling
amount "1001" — the immediate validation error of the spec's own example. -/
theorem C2_mint_validation_witness :
    mintTokens ⟨"1001", .ok "0xh", .ok (), ⟨.ok 0, .ok true⟩, 0⟩ connectedState =
      ⟨connectedState, [], [⟨"mintStatus", "Maximum mint amount is 1000 tokens", .error⟩]⟩ :=
  (C2_mint_validation ⟨"1001", .ok "0xh", .ok (), ⟨.ok 0, .ok true⟩, 0⟩ connectedState
    ⟨"0xC0de", "abiJson"⟩ rfl).2.1 (by decide) (by decide) (by decide)

/-- Claim C4: with a contract bound, a malformed (or empty) destination
address makes Transfer stop with the validation error, zero network calls and
an unchanged state; a well-formed destination with an amount whose numeric
value is positive proceeds into the submission path, with no upper ceiling on
the amount. -/
theorem C4_transfer_address_validation (env : TransferEnv) (s : AppState)
    (c : ContractHandle) (hc : s.contract = some c) :
    ((env.transferToValue = "" ∨ env.isAddress env.transferToValue = false) →
      transferTokens env s =
        ⟨s, [], [⟨"transferStatus", "Please enter a valid address", .error⟩]⟩) ∧
    (∀ q : ℚ, env.isAddress env.transferToValue = true → ¬env.transferToValue = "" →
      jsToNumber env.transferAmountValue = .num q → 0 < q →
      (transferTokens env s).statuses.head? =
        some ⟨"transferStatus", "Transferring tokens...", .info⟩) := by
  unfold transferTokens
  rw [hc]
  dsimp only
  constructor
  · intro hrej
    rw [if_pos hrej]
  · intro q haddr hne hq hq0
    have hane : ¬env.transferAmountValue = "" := by
      intro hEq
      rw [hEq] at hq
      have : jsToNumber "" = JSNum.num 0 := rfl
      rw [this] at hq
      injection hq with hq2
      rw [← hq2] at hq0
      exact lt_irrefl 0 hq0
    rw [if_neg (by simp [hne, haddr]),
      if_neg (by simp [hane, hq, jsNumLe, not_le.mpr hq0])]
    rcases parseEther env.transferAmountValue with e | amt
    · rfl
    · rcases env.transferResult with msg | hash
      · rfl
      · rcases env.waitResult with msg | u <;> rfl

/-- Claim C4 witness: a malformed address is rejected with zero calls, and a
well-formed one with a large amount (beyond any mint ceiling) proceeds. -/
theorem C4_transfer_address_validation_witness :
    transferTokens ⟨"nonsense", "5", fun a => a = "0xAbCd", .ok "0xh", .ok (),
        ⟨.ok 0, .ok true⟩, 0⟩ connectedState =
      ⟨connectedState, [], [⟨"transferStatus", "Please enter a valid address", .error⟩]⟩ ∧
    (transferTokens ⟨"0xAbCd", "99999", fun a => a = "0xAbCd", .ok "0xh", .ok (),
        ⟨.ok 0, .ok true⟩, 0⟩ connectedState).statuses.head? =
      some ⟨"transferStatus", "Transferring tokens...", .info⟩ :=
  ⟨(C4_transfer_address_validation _ connectedState ⟨"0xC0de", "abiJson"⟩ rfl).1
      (Or.inr (by decide)),
    (C4_transfer_address_validation _ connectedState ⟨"0xC0de", "abiJson"⟩ rfl).2
      99999 (by decide) (by decide) (by decide) (by decide)⟩

/-- Claim C10: with a contract bound, a nonempty amount string whose
JavaScript coercion is NaN sails through the validation comparisons of both
Mint and Transfer (no validation error), reaches the submission attempt, and
there the base-unit conversion failure is caught and reported as a mint or
transfer failure — with zero network calls and an unchanged state. -/
theorem C10_nan_amount_reaches_submission (envM : MintEnv) (envT : TransferEnv)
    (s : AppState) (c : ContractHandle) (hc : s.contract = some c)
    (hm : jsToNumber envM.mintAmountValue = .nan) (hm0 : ¬envM.mintAmountValue = "")
    (ht : jsToNumber envT.transferAmountValue = .nan) (ht0 : ¬envT.transferAmountValue = "")
    (ha : envT.isAddress envT.transferToValue = true) (ha0 : ¬envT.transferToValue = "") :
    (∃ e, mintTokens envM s =
      ⟨s, [], [⟨"mintStatus", "Minting tokens...", .info⟩,
               ⟨"mintStatus", "Mint failed: " ++ e, .error⟩]⟩) ∧
    (∃ e, transferTokens envT s =
      ⟨s, [], [⟨"transferStatus", "Transferring tokens...", .info⟩,
               ⟨"transferStatus", "Transfer failed: " ++ e, .error⟩]⟩) := by
  rcases parseEther_error_of_nan envM.mintAmountValue hm with ⟨e1, he1⟩
  rcases parseEther_error_of_nan envT.transferAmountValue ht with ⟨e2, he2⟩
  constructor
  · refine ⟨e1, ?_⟩
    unfold mintTokens
    rw [hc]
    dsimp only
    rw [if_neg (by simp [hm0, hm, jsNumLe]), if_neg (by simp [hm, jsNumGt]), he1]
  · refine ⟨e2, ?_⟩
    unfold transferTokens
    rw [hc]
    dsimp only
    rw [if_neg (by simp [ha0, ha]), if_neg (by simp [ht0, ht, jsNumLe]), he2]

theorem mint_history_spec (env : MintEnv) (s : AppState) :
    ((mintTokens env s).state.txHistory ≠ s.txHistory ↔
      ((∃ v, NetworkCall.submitMint v ∈ (mintTokens env s).calls) ∧
        ∃ h, env.whitelistMintResult = .ok h)) ∧
    (∀ h, env.whitelistMintResult = .ok h →
      (∃ v, NetworkCall.submitMint v ∈ (mintTokens env s).calls) →
      (mintTokens env s).state.txHistory =
        mkTxRecord "Mint" h (env.mintAmountValue ++ " CHAL") env.now :: s.txHistory) := by
  unfold mintTokens
  cases hcs : s.contract with
  | none => simp
  | some c =>
    dsimp only
    by_cases h1 : env.mintAmountValue = "" ∨ jsNumLe (jsToNumber env.mintAmountValue) 0 = true
    · rw [if_pos h1]
      simp
    rw [if_neg h1]
    by_cases h2 : jsNumGt (jsToNumber env.mintAmountValue) 1000 = true
    · rw [if_pos h2]
      simp
    rw [if_neg h2]
    rcases parseEther env.mintAmountValue with e | amt
    · simp
    · rcases env.whitelistMintResult with msg | hash
      · simp
      · rcases env.waitResult with msg | u
        · constructor
          · constructor
            · exact fun _ => ⟨⟨amt, by simp⟩, hash, rfl⟩
            · exact fun _ => List.cons_ne_self _ _
          · intro h hok _
            injection hok with hEq
            subst hEq
            rfl
        · constructor
          · constructor
            · exact fun _ => ⟨⟨amt, by simp⟩, hash, rfl⟩
            · exact fun _ => List.cons_ne_self _ _
          · intro h hok _
            injection hok with hEq
            subst hEq
            rfl

theorem transfer_history_spec (env : TransferEnv) (s : AppState) :
    ((transferTokens env s).state.txHistory ≠ s.txHistory ↔
      ((∃ v, NetworkCall.submitTransfer env.transferToValue v ∈ (transferTokens env s).calls) ∧
        ∃ h, env.transferResult = .ok h)) ∧
    (∀ h, env.transferResult = .ok h →
      (∃ v, NetworkCall.submitTransfer env.transferToValue v ∈ (transferTokens env s).calls) →
      (transferTokens env s).state.txHistory =
        mkTxRecord "Transfer" h
          (env.transferAmountValue ++ " CHAL to " ++ formatAddress env.transferToValue)
          env.now :: s.txHistory) := by
  unfold transferTokens
  cases hcs : s.contract with
  | none => simp
  | some c =>
    dsimp only
    by_cases h1 : env.transferToValue = "" ∨ env.isAddress env.transferToValue = false
    · rw [if_pos h1]
      simp
    rw [if_neg h1]
    by_cases h2 : env.transferAmountValue = "" ∨
        jsNumLe (jsToNumber env.transferAmountValue) 0 = true
    · rw [if_pos h2]
      simp
    rw [if_neg h2]
    rcases parseEther env.transferAmountValue with e | amt
    · simp
    · rcases env.transferResult with msg | hash
      · simp
      · rcases env.waitResult with msg | u
        · constructor
          · constructor
            · exact fun _ => ⟨⟨amt, by simp⟩, hash, rfl⟩
            · exact fun _ => List.cons_ne_self _ _
          · intro h hok _
            injection hok with hEq
            subst hEq
            rfl
        · constructor
          · constructor
            · exact fun _ => ⟨⟨amt, by simp⟩, hash, rfl⟩
            · exact fun _ => List.cons_ne_self _ _
          · intro h hok _
            injection hok with hEq
            subst hEq
            rfl

/-- Claim C3: in every Mint or Transfer run the transaction log changes
exactly when the submission call was issued and returned a hash; and then the
change is exactly one new pending record at the head of the log, already
present whatever the confirmation outcome is — a failed submission appends
nothing, a failed confirmation appends nothing beyond that single record. -/
theorem C3_record_iff_submission_hash (envM : MintEnv) (envT : TransferEnv)
    (s : AppState) :
    ((mintTokens envM s).state.txHistory ≠ s.txHistory ↔
      ((∃ v, NetworkCall.submitMint v ∈ (mintTokens envM s).calls) ∧
        ∃ h, envM.whitelistMintResult = .ok h)) ∧
    (∀ h, envM.whitelistMintResult = .ok h →
      (∃ v, NetworkCall.submitMint v ∈ (mintTokens envM s).calls) →
      (mintTokens envM s).state.txHistory =
        mkTxRecord "Mint" h (envM.mintAmountValue ++ " CHAL") envM.now :: s.txHistory) ∧
    ((transferTokens envT s).state.txHistory ≠ s.txHistory ↔
      ((∃ v, NetworkCall.submitTransfer envT.transferToValue v
          ∈ (transferTokens envT s).calls) ∧
        ∃ h, envT.transferResult = .ok h)) ∧
    (∀ h, envT.transferResult = .ok h →
      (∃ v, NetworkCall.submitTransfer envT.transferToValue v
        ∈ (transferTokens envT s).calls) →
      (transferTokens envT s).state.txHistory =
        mkTxRecord "Transfer" h
          (envT.transferAmountValue ++ " CHAL to " ++ formatAddress envT.transferToValue)
          envT.now :: s.txHistory) :=
  ⟨(mint_history_spec envM s).1, (mint_history_spec envM s).2,
    (transfer_history_spec envT s).1, (transfer_history_spec envT s).2⟩

/-- Claim C3 witness: a mint whose submission returns hash `0xh1` and whose
confirmation then fails still has exactly the one pending record at the head
of the log. -/
theorem C3_record_iff_submission_hash_witness :
    (mintTokens ⟨"5", .ok "0xh1", .error "reverted", ⟨.ok 0, .ok true⟩, 7⟩
        connectedState).state.txHistory =
      mkTxRecord "Mint" "0xh1" "5 CHAL" 7 :: connectedState.txHistory :=
  (C3_record_iff_submission_hash
      ⟨"5", .ok "0xh1", .error "reverted", ⟨.ok 0, .ok true⟩, 7⟩
      ⟨"0xAbCd", "5", fun _ => true, .ok "0xh2", .ok (), ⟨.ok 0, .ok true⟩, 7⟩
      connectedState).2.1 "0xh1" rfl ⟨5000000000000000000, by decide⟩

/-- Claim C10 witness: the NaN amount "abc" in both operations. -/
theorem C10_nan_amount_reaches_submission_witness :
    (∃ e, mintTokens ⟨"abc", .ok "0xh", .ok (), ⟨.ok 0, .ok true⟩, 0⟩ connectedState =
      ⟨connectedState, [], [⟨"mintStatus", "Minting tokens...", .info⟩,
        ⟨"mintStatus", "Mint failed: " ++ e, .error⟩]⟩) ∧
    (∃ e, transferTokens ⟨"0xAbCd", "abc", fun a => a = "0xAbCd", .ok "0xh", .ok (),
        ⟨.ok 0, .ok true⟩, 0⟩ connectedState =
      ⟨connectedState, [], [⟨"transferStatus", "Transferring tokens...", .info⟩,
        ⟨"transferStatus", "Transfer failed: " ++ e, .error⟩]⟩) :=
  C10_nan_amount_reaches_submission _ _ connectedState ⟨"0xC0de", "abiJson"⟩ rfl
    (by decide) (by decide) (by decide) (by decide) (by decide) (by decide)

end ChaleeMonad
